import Mathlib

/-!
Verification of the S3 storage adapter (`storages3`).

Shallow embedding of the two core components of the adapter and the thin operation
dispatch around them, translated from the TypeScript source:

* the `S3Request` request/result envelope (result classification and typed
  payload views);
* the `FsmStreamLoader` chunked range-read state machine (range computation,
  content-range parsing, gzip-pipeline decision, error handling);
* the `StorageManager` operations `load`/`head`/`save`/`del`/`ls` and
  `lookupBucket`.

Modelling conventions:

* JavaScript `null`/`undefined`-able values become `Option`;
* payload byte buffers handled opaquely by the loader are modelled by their
  byte count (the code only forwards them to a stream, never inspects them);
* the payload transformations of the envelope (`zlib.gunzipSync`, UTF-8 decoding)
  are modelled symbolically by the `Payload` type, which records whether the
  body was routed through decompression — the claims under verification only
  depend on which route is taken, not on the behaviour of zlib;
* the asynchronous completion callbacks become pure state-transition
  functions, and a fetch run is the fold of the callback over a list of
  backend responses.
-/

namespace StorageS3

/-- Byte buffers (`Buffer` contents), as lists of byte values. -/
abbrev Bytes := List Nat

/-- Result-classification constants. Modelled from the spec: the constants
`EPending`/`ENotFound`/`EFail`/`ESuccess` come from the external
`@dra2020/storage` library (not part of this repository); the taxonomy in section 7 of the spec only requires them to be four distinct values
(PENDING / NOT_FOUND / FAILED / SUCCESS). -/
inductive SResult where
  | EPending
  | ENotFound
  | EFail
  | ESuccess
  deriving DecidableEq, Repr

/-- A backend error object, as consumed by the adapter: an optional numeric
HTTP-like status code and an optional message.  (`err.statusCode` is compared
against `404` in `S3Request.result`.) -/
structure S3Err where
  statusCode : Option Nat := none
  message : Option String := none
  deriving DecidableEq, Repr

/-- The per-object fields the envelope reads off a listing entry (an element
of `data.Contents`) or off a single-object response: `_dataToProps` accesses
`Size`, `Key`, `ETag`, `LastModified` and `ContentEncoding`. -/
structure Entry where
  Key : Option String := none
  Size : Option Nat := none
  ETag : Option String := none
  LastModified : Option Nat := none
  ContentEncoding : Option String := none
  deriving DecidableEq, Repr

/-- A backend response object (`data` as set by a completion callback).  It
carries the `Entry` fields (used when the response is a single object) plus
the payload body, the listing contents, and listing continuation data. -/
structure S3Data extends Entry where
  Body : Option Bytes := none
  Contents : Option (List Entry) := none
  NextContinuationToken : Option String := none
  deriving DecidableEq, Repr

/-- The `S3Request` envelope.  `data` and `err` are the fields populated by a
completion callback; `hasRes` models `this.res != null` (the callback sets
`res` to the storage manager); `blobLoadStream` models
`this.blob.asLoadStream() != null` (the stream loader registers a passthrough
stream on the blob synchronously at construction). -/
structure S3Request where
  data : Option S3Data := none
  err : Option S3Err := none
  hasRes : Bool := false
  blobLoadStream : Bool := false
  deriving DecidableEq, Repr

/-- Source `S3Request.result`:

```
if (this.data == null && this.blob.asLoadStream() == null && this.err == null)
  return Storage.EPending;
else if (this.err != null)
  if (this.err.statusCode && this.err.statusCode == 404) return Storage.ENotFound;
  else return Storage.EFail;
else
  return Storage.ESuccess;
```

`this.err.statusCode && this.err.statusCode == 404` holds exactly when the
status code is present and equal to `404` (a JS-falsy code `0` also fails the
`== 404` comparison), i.e. exactly when `statusCode = some 404` here. -/
def S3Request.result (rq : S3Request) : SResult :=
  if rq.data = none ∧ rq.blobLoadStream = false ∧ rq.err = none then
    .EPending
  else
    match rq.err with
    | some e => if e.statusCode = some 404 then .ENotFound else .EFail
    | none => .ESuccess

/-- The value produced by a body-returning typed view, recording whether the
body bytes were routed through `zlib.gunzipSync` before being returned
(`asString` additionally UTF-8-decodes the result; the decoding is kept
symbolic). -/
inductive Payload where
  | raw (b : Bytes)
  | gunzipped (b : Bytes)
  deriving DecidableEq, Repr

/-- Source `S3Request.asString`: returns `undefined` (here `none`) when the envelope
is errored, has no response object, no data, or no payload body; otherwise
decodes the body, gunzipping first iff `data.ContentEncoding === "gzip"`. -/
def S3Request.asString (rq : S3Request) : Option Payload :=
  if rq.err.isSome ∨ rq.hasRes = false then none
  else
    match rq.data with
    | none => none
    | some d =>
      match d.Body with
      | none => none
      | some b =>
        if d.ContentEncoding = some "gzip" then some (.gunzipped b)
        else some (.raw b)

/-- Source `S3Request.asUncompressedBuffer`: same guard and gzip handling as
`asString`, but returns the bytes rather than decoded text. -/
def S3Request.asUncompressedBuffer (rq : S3Request) : Option Payload :=
  if rq.err.isSome ∨ rq.hasRes = false then none
  else
    match rq.data with
    | none => none
    | some d =>
      match d.Body with
      | none => none
      | some b =>
        if d.ContentEncoding = some "gzip" then some (.gunzipped b)
        else some (.raw b)

/-- Source `S3Request.asBuffer`: same guard, returns `data.Body` verbatim (no
decompression). -/
def S3Request.asBuffer (rq : S3Request) : Option Bytes :=
  if rq.err.isSome ∨ rq.hasRes = false then none
  else
    match rq.data with
    | none => none
    | some d => d.Body

/-- Source `S3Request.asArray`: when `this.data` is present and `this.data.Contents`
is an array, the list of entry keys (the empty string for an entry with a JS-falsy key);
otherwise the empty list.  No error/response/body guard is present in the
source. -/
def S3Request.asArray (rq : S3Request) : List String :=
  match rq.data with
  | some d =>
    match d.Contents with
    | some entries => entries.map (fun e => e.Key.getD "")
    | none => []
  | none => []

/-- The property record built by `_dataToProps`. -/
structure BlobProperties where
  ContentLength : Nat := 0
  Key : Option String := none
  ETag : Option String := none
  LastModified : Option Nat := none
  ContentEncoding : Option String := none
  deriving DecidableEq, Repr

/-- Source `S3Request._dataToProps`: size defaults to `0` when `Size` is undefined;
the other four fields are copied verbatim. -/
def S3Request.dataToProps (e : Entry) : BlobProperties :=
  { ContentLength := e.Size.getD 0
    Key := e.Key
    ETag := e.ETag
    LastModified := e.LastModified
    ContentEncoding := e.ContentEncoding }

/-- Source `S3Request.asProps`: if `this.data` is present and `this.data.Contents` is
an array, maps `_dataToProps` over the entries; otherwise it calls
`_dataToProps(this.data)` unconditionally.  When `this.data` is `null` that
call evaluates `data.Size` on `null` and throws a `TypeError`; the thrown
exception is modelled as `Except.error`. -/
def S3Request.asProps (rq : S3Request) : Except String (List BlobProperties) :=
  match rq.data with
  | some d =>
    match d.Contents with
    | some entries => .ok (entries.map S3Request.dataToProps)
    | none => .ok [S3Request.dataToProps d.toEntry]
  | none => .error "TypeError: Cannot read properties of null"

/-- Source `const ChunkSize = 4000000`. -/
def ChunkSize : Nat := 4000000

/-- Maximal digit run at the head of the character list, with its numeric
value (the `\d+` capture followed by `Number(...)` conversion). -/
def digitsAux : List Nat → List Char → Nat × List Char
  | acc, [] => (acc.foldl (fun n d => n * 10 + d) 0, [])
  | acc, c :: cs =>
    if c.isDigit then digitsAux (acc ++ [c.toNat - 48]) cs
    else (acc.foldl (fun n d => n * 10 + d) 0, c :: cs)

/-- Digit-run capture `\d+`: requires at least one digit, consumes the maximal run.  (The regex
continuations after each capture are single non-digit literals, so maximal
munch agrees with backtracking semantics.) -/
def takeDigits : List Char → Option (Nat × List Char)
  | [] => none
  | c :: cs => if c.isDigit then some (digitsAux [] (c :: cs)) else none

/-- Matches a literal character sequence at the head of the input. -/
def dropLit : List Char → List Char → Option (List Char)
  | [], cs => some cs
  | _ :: _, [] => none
  | p :: ps, c :: cs => if c = p then dropLit ps cs else none

/-- One anchored attempt of the regex `bytes (\d+)-(\d+)\/(\d+)` at the head
of the input, returning the three numeric captures. -/
def matchAt (cs : List Char) : Option (Nat × Nat × Nat) := do
  let cs ← dropLit "bytes ".data cs
  let (a, cs) ← takeDigits cs
  let cs ← match cs with
    | '-' :: r => some r
    | _ => none
  let (e, cs) ← takeDigits cs
  let cs ← match cs with
    | '/' :: r => some r
    | _ => none
  let (t, _) ← takeDigits cs
  pure (a, e, t)

/-- Unanchored search, leftmost match first (`RegExp.prototype.exec`). -/
def searchCR : List Char → Option (Nat × Nat × Nat)
  | [] => none
  | c :: cs =>
    match matchAt (c :: cs) with
    | some r => some r
    | none => searchCR cs

/-- Model of `re.exec(s)` for `re = /bytes (\d+)-(\d+)\/(\d+)/`, returning the three
numeric captures `(start, end, total)`.  When `exec` succeeds,
`matched.length === 4` always holds (full match plus exactly three capture
groups), so the length check in the source never filters a successful match. -/
def parseContentRange (s : String) : Option (Nat × Nat × Nat) :=
  searchCR s.data

/-- The FSM states the loader moves through (`FSM.FSM_STARTING`,
`FSM.FSM_DONE`, `FSM.FSM_ERROR` of the external fsm library). -/
inductive FsmState where
  | STARTING
  | DONE
  | ERROR
  deriving DecidableEq, Repr

/-- A `getObject` range-read response body, as consumed by the completion
callback of the loader: content encoding, payload body (modelled by its byte count — the
code only forwards the buffer to the write-side stream), and the raw
content-range header string. -/
structure ChunkResponse where
  ContentEncoding : Option String := none
  Body : Option Nat := none
  ContentRange : Option String := none
  deriving DecidableEq, Repr

/-- The mutable state of one `FsmStreamLoader`:

* `contentLength` / `contentPos` — the fields of the same name
  (`undefined` ↦ `none`; JS numbers are modelled as `Int` so the
  `contentLength - 1` arithmetic matches JS even at `contentLength = 0`);
* `err` — the terminal error;
* `pipeGzip` — the pipeline decision: `none` before any decision,
  `some true` after `readStream.pipe(unzip).pipe(passThrough)` is spliced in,
  `some false` after the direct `readStream.pipe(passThrough)`;
* `decisionCount` — how many times the first-chunk decision block has run;
* `readStreamBytes` — total bytes written to the write-side stream;
* `readStreamDone` / `passThroughDone` — whether `_done()` has been called on
  the write-side / exposed stream;
* `fsmState` — the FSM state of the loader. -/
structure LoaderState where
  contentLength : Option Int := none
  contentPos : Int := 0
  err : Option S3Err := none
  pipeGzip : Option Bool := none
  decisionCount : Nat := 0
  readStreamBytes : Nat := 0
  readStreamDone : Bool := false
  passThroughDone : Bool := false
  fsmState : FsmState := .STARTING
  deriving DecidableEq, Repr

namespace FsmStreamLoader

/-- The loader state right after the constructor: `contentPos = 0`,
`contentLength` undefined, both streams created and open, FSM starting.  (The
constructor also registers the exposed passthrough stream as the load stream
of the blob, which is what `S3Request.blobLoadStream` models.) -/
def init : LoaderState := {}

/-- The byte range computed at the top of `tick`:

```
if (this.contentLength === undefined)
  this.param.Range = `bytes=0-${ChunkSize-1}`;
else
  this.param.Range = `bytes=${this.contentPos}-${Math.min(this.contentPos+ChunkSize-1, this.contentLength-1)}`;
```

modelled as the inclusive `(first, last)` byte pair of the `Range` header. -/
def tickRange (st : LoaderState) : Int × Int :=
  match st.contentLength with
  | none => (0, (ChunkSize : Int) - 1)
  | some len => (st.contentPos, min (st.contentPos + (ChunkSize : Int) - 1) (len - 1))

/-- Source condition `data.ContentEncoding && data.ContentEncoding === "gzip"`. -/
def decideGzip (d : ChunkResponse) : Bool :=
  d.ContentEncoding == some "gzip"

/-- The `getObject` completion callback inside `tick` (source lines 185-237),
as one state transition on the loader state, taking the response of the backend
(`err`/`data`):

* on error: skip the success block, then `this.err = err;
  this.readStream._done(); this.passThrough._done();
  this.setState(FSM_ERROR)`;
* on success: (1) if `contentLength` is still undefined, run the pipeline
  decision (splice gunzip iff the response declares gzip content-encoding);
  (2) write `data.Body` to the write-side stream if present; (3) parse
  `data.ContentRange` with the regex and on a match set
  `contentPos = end + 1`, `contentLength = total`; (4) if now
  `contentPos === contentLength`, call `readStream._done()` (the DONE state
  is set later by the end event of the pipeline itself), otherwise
  `setState(FSM_STARTING)` to request the next chunk.

(A JS-falsy `ContentRange` of `""` skips the parse in the source; parsing
`""` fails anyway, so folding the two checks into `Option.bind` is
behaviour-preserving.  An empty `Body` buffer is truthy in JS and writes zero
bytes, matching `some 0` here.) -/
def tickCallback (st : LoaderState) (r : Except S3Err ChunkResponse) : LoaderState :=
  match r with
  | .error e =>
    { st with err := some e, readStreamDone := true, passThroughDone := true,
              fsmState := .ERROR }
  | .ok data =>
    let st1 :=
      if st.contentLength = none then
        { st with pipeGzip := some (decideGzip data),
                  decisionCount := st.decisionCount + 1 }
      else st
    let st2 :=
      match data.Body with
      | some n => { st1 with readStreamBytes := st1.readStreamBytes + n }
      | none => st1
    let st3 :=
      match data.ContentRange.bind parseContentRange with
      | some (_, e2, tot) =>
        { st2 with contentPos := (e2 : Int) + 1, contentLength := some (tot : Int) }
      | none => st2
    if st3.contentLength = some st3.contentPos then
      { st3 with readStreamDone := true }
    else
      { st3 with fsmState := .STARTING }

end FsmStreamLoader

/-- Whether the loader has stopped issuing chunk requests: the callback loops
back to `FSM_STARTING` (triggering another `tick`) exactly when no error
occurred and `contentPos === contentLength` does not hold (a number is never
`===` to `undefined`). -/
def fetchDone (st : LoaderState) : Bool :=
  st.err.isSome || decide (st.contentLength = some st.contentPos)

/-- Drives one fetch against a list of backend responses: while the loader is
still requesting, compute the `Range` of the next chunk request, consume the
next response with the completion callback, and continue.  Returns the list
of issued ranges and the final loader state.  (Chunk requests are strictly
sequential in the source — the next `tick` only runs after the previous
callback — so a fetch is a left fold over the response sequence.) -/
def runLoaderL : List (Except S3Err ChunkResponse) → LoaderState → List (Int × Int) × LoaderState
  | [], st => ([], st)
  | r :: rs, st =>
    if fetchDone st then ([], st)
    else
      let rg := FsmStreamLoader.tickRange st
      let p := runLoaderL rs (FsmStreamLoader.tickCallback st r)
      (rg :: p.1, p.2)

/-- Modelled from the spec: the end-of-pipeline signal.  The handlers
installed by the pipeline decision (source lines 194-202) call
`passThrough._done()` and `setState(FSM_DONE)` when the
write-side/decompression/exposed pipeline emits its `end` event; that event
fires (per Node stream semantics, external to this repository) once the
write-side stream has been `_done()`d and its bytes flushed, on an
error-free fetch. -/
def pipelineEnd (st : LoaderState) : LoaderState :=
  if st.readStreamDone && st.err.isNone then
    { st with passThroughDone := true, fsmState := .DONE }
  else st

/-- The `bucketMap` (a plain JS object mapping bucket names to bucket names),
as a finite association list; `bucketMap[s]` is the first binding for `s`. -/
def mapLookup (m : List (String × String)) (s : String) : Option String :=
  match m.find? (fun p => p.1 == s) with
  | some p => some p.2
  | none => none

/-- The body of the `while` loop in `lookupBucket`
(`while (this.bucketMap[s] !== undefined) s = this.bucketMap[s];`), with an
explicit fuel bound; `none` means the fuel ran out before the loop exited. -/
def lookupBucketFuel (m : List (String × String)) : Nat → String → Option String
  | 0, _ => none
  | n + 1, s =>
    match mapLookup m s with
    | none => some s
    | some t => lookupBucketFuel m n t

/-- Source `StorageManager.lookupBucket`, with fuel `|bucketMap| + 1`: on an acyclic
chain the loop can take at most `|bucketMap|` steps (each step consumes a
distinct key), so this fuel is sufficient and a `some` result means the
`while` loop of the source terminates. -/
def StorageManager.lookupBucket (m : List (String × String)) (s : String) : Option String :=
  lookupBucketFuel m (m.length + 1) s

/-- The `n`-th element of the bucket-map chain starting at `s`: `none` once
the chain has left the domain of the map. -/
def iterO (m : List (String × String)) : Nat → String → Option String
  | 0, s => some s
  | n + 1, s =>
    match mapLookup m s with
    | some t => iterO m n t
    | none => none

/-- Decidable acyclicity of the chain starting at `s`: the first
`|m| + 1` chain elements (where defined) are pairwise distinct.  A chain
whose first `|m| + 1` elements repeat is exactly a cyclic one, so the bound
loses no generality. -/
def acyclicFromB (m : List (String × String)) (s : String) : Bool :=
  (List.range (m.length + 1)).all fun j =>
    (List.range j).all fun i =>
      match iterO m i s, iterO m j s with
      | some a, some b => a != b
      | _, _ => true

/-- The externally observable actions an operation performs, in program
order: error/event logging, creation of the `S3Request` envelope, blob
lifecycle setters, the single backend network call, result classification
delivered to the blob (`setLoaded`/`setSaved` with `rq.result()`), and the
completion observer (`this.emit(op, blob)`). -/
inductive Effect where
  | logError (msg : String)
  | logEvent (msg : String)
  | createEnvelope
  | setLifecycle (s : String)
  | networkCall (api : String)
  | setResult (r : SResult)
  | emitObserver (ev : String)
  deriving DecidableEq, Repr

/-- Number of backend network calls in a trace. -/
def networkCount (l : List Effect) : Nat :=
  (l.filter fun x =>
    match x with
    | .networkCall _ => true
    | _ => false).length

/-- Number of `S3Request` envelopes created in a trace. -/
def envelopeCount (l : List Effect) : Nat :=
  (l.filter fun x =>
    match x with
    | .createEnvelope => true
    | _ => false).length

/-- Number of completion-observer notifications in a trace. -/
def observerCount (l : List Effect) : Nat :=
  (l.filter fun x =>
    match x with
    | .emitObserver _ => true
    | _ => false).length

/-- The envelope as populated by a plain (non-streaming) completion callback:
`rq.res = this`, then `rq.err = err` on error else `rq.data = data`. -/
def reqOfRemote (remote : Except S3Err S3Data) : S3Request :=
  match remote with
  | .error e => { err := some e, hasRes := true }
  | .ok d => { data := some d, hasRes := true }

/-- The envelope as populated by `_finishLoad`: for a streamed load the
`fsm.err` of the loader is passed as `err` and `data` stays `undefined` (the blob
carries a load stream); for a plain load the `err`/`data` pair of the
`getObject` callback is used. -/
def finishLoadReq (stream : Bool) (remote : Except S3Err S3Data) : S3Request :=
  if stream then
    match remote with
    | .error e => { err := some e, hasRes := true, blobLoadStream := true }
    | .ok _ => { hasRes := true, blobLoadStream := true }
  else reqOfRemote remote

namespace StorageManager

/-- Trace model of `StorageManager.load`.  `stream` is
whether `blob.param("ContentDisposition") === "stream"`; `remote` is the
outcome of the underlying fetch (for a streamed load, the terminal outcome
of the stream loader).  An empty key aborts after one error-log call, before the
envelope is created or any network call is issued, and no exception is
raised (the function simply returns). -/
def load (blobId : String) (stream : Bool) (remote : Except S3Err S3Data) : List Effect :=
  if blobId = "" then [.logError "S3: blob load called with empty key"]
  else
    [.logEvent "S3: load start", .createEnvelope, .setLifecycle "loading",
     .networkCall (if stream then "getObject(stream-loader)" else "getObject"),
     .setResult (finishLoadReq stream remote).result,
     .emitObserver "load", .logEvent "S3: load end"]

/-- Trace model of `StorageManager.head`. -/
def head (blobId : String) (remote : Except S3Err S3Data) : List Effect :=
  if blobId = "" then [.logError "S3: blob head called with empty key"]
  else
    [.logEvent "S3: head start", .createEnvelope, .setLifecycle "loading",
     .networkCall "headObject",
     .setResult (reqOfRemote remote).result,
     .emitObserver "head", .logEvent "S3: head end"]

/-- Trace model of `StorageManager.del` (the delete
callback fires the observer without a result-classification setter). -/
def del (blobId : String) : List Effect :=
  if blobId = "" then [.logError "S3: blob delete called with empty key"]
  else
    [.logEvent "S3: del start", .createEnvelope, .setLifecycle "deleting",
     .networkCall "deleteObject",
     .emitObserver "del", .logEvent "S3: del done"]

/-- Trace model of `StorageManager.ls`.  `bucket` is the
already-resolved bucket (`this.blobBucket(blob)`); the emptiness check is on
that resolved name. -/
def ls (bucket : String) : List Effect :=
  if bucket = "" then [.logError "S3: blob ls called with empty bucket"]
  else
    [.logEvent "S3: ls start", .createEnvelope, .setLifecycle "listing",
     .networkCall "listObjectsV2",
     .setLifecycle "listed",
     .emitObserver "ls", .logEvent "S3: ls done"]

end StorageManager

/-- The content sources a blob offers to `save`, plus its id and the
parameters `save` consults. -/
structure SaveBlob where
  id : String
  contentEncoding : Option String := none
  hasStream : Bool := false
  file : Option String := none
  hasBuffer : Bool := false
  str : Option String := none
  deriving DecidableEq, Repr

/-- Which content source `save` ends up using as the put body. -/
inductive SaveBody where
  | fromStream
  | fromFileStream
  | fromBuffer
  | fromString (s : Option String)
  deriving DecidableEq, Repr

/-- The body-selection logic of `StorageManager.save` (source lines 396-429):
try in order (1) the stream of the blob, (2) — only when the `ContentEncoding`
parameter of the blob is not `"gzip"` — a read stream over the local file of
the blob (a synchronous open failure is caught and becomes the local error
early-return, modelled as `Except.error`), (3) the buffer of the blob, (4) the
UTF-8 string of the blob (possibly `undefined`).  `fsOpenErr` models whether
`fs.createReadStream(path)` throws for a given path. -/
def saveBodySelect (blob : SaveBlob) (fsOpenErr : String → Option S3Err) :
    Except S3Err SaveBody :=
  if blob.hasStream then .ok .fromStream
  else
    let fileStream : Except S3Err Bool :=
      if blob.contentEncoding ≠ some "gzip" then
        match blob.file with
        | some p =>
          match fsOpenErr p with
          | some e => .error e
          | none => .ok true
        | none => .ok false
      else .ok false
    match fileStream with
    | .error e => .error e
    | .ok true => .ok .fromFileStream
    | .ok false =>
      .ok (if blob.hasBuffer then .fromBuffer else .fromString blob.str)

/-- Trace model of `StorageManager.save`.  `remote` is
the `putObject` outcome (`none` = success).  On the local stream-open error
the operation completes on the next tick with the classification, by the
envelope, 
of the caught error and one observer notification, then logs the local
error; otherwise the body is selected and `putObject` issued, and its
callback classifies and notifies exactly once. -/
def StorageManager.save (blob : SaveBlob) (fsOpenErr : String → Option S3Err)
    (remote : Option S3Err) : List Effect :=
  if blob.id = "" then [.logError "S3: blob save called with empty key"]
  else
    [.logEvent "S3: save start", .createEnvelope, .setLifecycle "saving"] ++
    match saveBodySelect blob fsOpenErr with
    | .error e =>
      [.setResult (S3Request.result { err := some e }),
       .emitObserver "save",
       .logError "S3: failed to open blob path file"]
    | .ok _ =>
      [.networkCall "putObject",
       .setResult (S3Request.result
         (match remote with
          | some e => { err := some e, hasRes := true }
          | none => { data := some {}, hasRes := true })),
       .emitObserver "save", .logEvent "S3: save done"]

/-- The backend responses of a conforming 9,000,000-byte plain (non-gzip)
object served in `ChunkSize = 4,000,000` ranges; a fourth response is
supplied to demonstrate that the loader does not consume it (the fetch is
complete after three chunks). -/
def plain9M : List (Except S3Err ChunkResponse) :=
  [.ok { Body := some 4000000, ContentRange := some "bytes 0-3999999/9000000" },
   .ok { Body := some 4000000, ContentRange := some "bytes 4000000-7999999/9000000" },
   .ok { Body := some 1000000, ContentRange := some "bytes 8000000-8999999/9000000" },
   .ok { Body := some 1000000, ContentRange := some "bytes 8000000-8999999/9000000" }]

/-- A successful gzip-encoded chunk response carrying no content-range
header: the loader leaves `contentLength` undefined after processing it. -/
def noHeaderGzip : ChunkResponse := { ContentEncoding := some "gzip", Body := some 5 }

/-- A small gzip-encoded response with a well-formed content-range header. -/
def gzipSmallResp : ChunkResponse :=
  { ContentEncoding := some "gzip", Body := some 3, ContentRange := some "bytes 0-2/3" }

/-- Range conformance of one backend response to the chunk request it
answers: if the response carries a content-range header that the regex
parses, its start must be the first byte of the requested range and its end
must not precede its start.  (This is how the S3 `getObject` range contract
behaves; the loader itself never checks it.) -/
def respConformsB (range : Int × Int) (r : Except S3Err ChunkResponse) : Bool :=
  match r with
  | .error _ => true
  | .ok d =>
    match d.ContentRange.bind parseContentRange with
    | none => true
    | some (a, e2, _) => decide ((a : Int) = range.1 ∧ a ≤ e2)

/-- Range conformance of a whole response sequence along the run it drives:
each consumed response conforms to the range requested at that point. -/
def runConformsB : List (Except S3Err ChunkResponse) → LoaderState → Bool
  | [], _ => true
  | r :: rs, st =>
    if fetchDone st then true
    else respConformsB (FsmStreamLoader.tickRange st) r
         && runConformsB rs (FsmStreamLoader.tickCallback st r)

/-- The guard condition shared by `asString`, `asUncompressedBuffer` and
`asBuffer`: the envelope is errored, has no response object, or has no
payload body. -/
def noPayload (rq : S3Request) : Bool :=
  rq.err.isSome || !rq.hasRes ||
  (match rq.data with
   | none => true
   | some d => d.Body.isNone)

/-- A blob to be saved with the `ContentEncoding: gzip` parameter and no
stream, no local file, no buffer and no string content. -/
def gzipNoContentBlob : SaveBlob := { id := "k", contentEncoding := some "gzip" }

/-- A listing response carrying one keyed entry and no payload body
(`Contents` is an array, `Body` is absent) — the shape a `listObjectsV2`
completion stores on the envelope. -/
def listingNoBody : S3Data := { Contents := some [{ Key := some "k1" }] }


/-!
Helper lemmas, shared between the claims.
-/

/-- On a successful response, the position/length update of the callback is
exactly the content-range parse: on a parse `(start, end, total)` the new
`contentPos` is `end + 1` and the new `contentLength` is `total`; with no
header or no match both fields are unchanged. -/
theorem tickCallback_pos_len (st : LoaderState) (d : ChunkResponse) :
    (FsmStreamLoader.tickCallback st (.ok d)).contentPos =
      (match d.ContentRange.bind parseContentRange with
       | some (_, e2, _) => (e2 : Int) + 1
       | none => st.contentPos)
    ∧ (FsmStreamLoader.tickCallback st (.ok d)).contentLength =
      (match d.ContentRange.bind parseContentRange with
       | some (_, _, tot) => some (tot : Int)
       | none => st.contentLength) := by
  simp only [FsmStreamLoader.tickCallback]
  rcases hp : d.ContentRange.bind parseContentRange with _ | ⟨a, e2, tot⟩ <;>
  rcases hb : d.Body with _ | n <;>
  rcases hl : st.contentLength with _ | len <;>
  simp [hp, hb, hl] <;> split <;> simp_all

/-- A single conforming response never moves `contentPos` backwards, and
preserves the invariant that `contentPos = 0` while `contentLength` is still
unknown. -/
theorem tickCallback_pos_mono (st : LoaderState) (r : Except S3Err ChunkResponse)
    (hinv : st.contentLength = none → st.contentPos = 0)
    (hconf : respConformsB (FsmStreamLoader.tickRange st) r = true) :
    st.contentPos ≤ (FsmStreamLoader.tickCallback st r).contentPos
    ∧ ((FsmStreamLoader.tickCallback st r).contentLength = none →
        (FsmStreamLoader.tickCallback st r).contentPos = 0) := by
  cases r with
  | error e => exact ⟨le_refl _, hinv⟩
  | ok d =>
    have hpl := tickCallback_pos_len st d
    rcases hp : d.ContentRange.bind parseContentRange with _ | ⟨a, e2, tot⟩
    · rw [hp] at hpl
      simp only at hpl
      rw [hpl.1, hpl.2]
      exact ⟨le_refl _, hinv⟩
    · rw [hp] at hpl
      simp only at hpl
      rw [hpl.1, hpl.2]
      simp only [respConformsB, hp, decide_eq_true_eq] at hconf
      obtain ⟨ha, he⟩ := hconf
      constructor
      · cases hl : st.contentLength with
        | none =>
          rw [hinv hl]
          positivity
        | some len =>
          simp only [FsmStreamLoader.tickRange, hl] at ha
          rw [← ha]
          exact_mod_cast Nat.le_succ_of_le he
      · intro hc
        exact absurd hc (by simp)

/-- Along a run driven by conforming responses, `contentPos` never
decreases. -/
theorem runLoaderL_pos_mono (rs : List (Except S3Err ChunkResponse)) (st : LoaderState)
    (hinv : st.contentLength = none → st.contentPos = 0)
    (hconf : runConformsB rs st = true) :
    st.contentPos ≤ ((runLoaderL rs st).2).contentPos := by
  induction rs generalizing st with
  | nil => exact le_refl _
  | cons r rs ih =>
    by_cases hd : fetchDone st
    · simp [runLoaderL, hd]
    · simp only [runConformsB, hd, Bool.false_eq_true, if_false, Bool.and_eq_true] at hconf
      have hstep := tickCallback_pos_mono st r hinv hconf.1
      have hrest := ih (FsmStreamLoader.tickCallback st r) hstep.2 hconf.2
      simp only [runLoaderL, hd, Bool.false_eq_true, if_false]
      exact le_trans hstep.1 hrest

/-- Once `contentLength` is known, the first-chunk decision block never runs
again and the pipeline decision is stable along any remaining run. -/
theorem tickCallback_decision_stable (st : LoaderState) (r : Except S3Err ChunkResponse)
    (h : st.contentLength ≠ none) :
    (FsmStreamLoader.tickCallback st r).decisionCount = st.decisionCount
    ∧ (FsmStreamLoader.tickCallback st r).pipeGzip = st.pipeGzip
    ∧ (FsmStreamLoader.tickCallback st r).contentLength ≠ none := by
  cases r with
  | error e => exact ⟨rfl, rfl, h⟩
  | ok d =>
    simp only [FsmStreamLoader.tickCallback]
    rcases hp : d.ContentRange.bind parseContentRange with _ | ⟨a, e2, tot⟩ <;>
    rcases hb : d.Body with _ | n <;>
    simp [h, hp, hb] <;> split <;> simp_all

/-- Run-level version of `tickCallback_decision_stable`. -/
theorem runLoaderL_decision_stable (rs : List (Except S3Err ChunkResponse)) (st : LoaderState)
    (h : st.contentLength ≠ none) :
    ((runLoaderL rs st).2).decisionCount = st.decisionCount
    ∧ ((runLoaderL rs st).2).pipeGzip = st.pipeGzip := by
  induction rs generalizing st with
  | nil => exact ⟨rfl, rfl⟩
  | cons r rs ih =>
    by_cases hd : fetchDone st
    · simp [runLoaderL, hd]
    · have hstep := tickCallback_decision_stable st r h
      have hrest := ih (FsmStreamLoader.tickCallback st r) hstep.2.2
      simp only [runLoaderL, hd, Bool.false_eq_true, if_false]
      exact ⟨hstep.1 ▸ hrest.1, hstep.2.1 ▸ hrest.2⟩

/-- A fuel-limited `lookupBucket` that returns a value only does so once the
returned name has no further mapping (the `while` guard is false). -/
theorem lookupBucketFuel_some_not_mapped (m : List (String × String)) :
    ∀ (f : Nat) (s r : String), lookupBucketFuel m f s = some r → mapLookup m r = none := by
  intro f
  induction f with
  | zero => intro s r h; simp [lookupBucketFuel] at h
  | succ n ih =>
    intro s r h
    simp only [lookupBucketFuel] at h
    cases hm : mapLookup m s with
    | none => rw [hm] at h; injection h with h; exact h ▸ hm
    | some t => rw [hm] at h; exact ih t r h

/-- If the fuel runs out, every chain element up to the fuel bound is
defined (the `while` loop was still running). -/
theorem lookupBucketFuel_none_iter (m : List (String × String)) :
    ∀ (f : Nat) (s : String), lookupBucketFuel m f s = none →
      ∀ k, k ≤ f → (iterO m k s).isSome := by
  intro f
  induction f with
  | zero =>
    intro s _ k hk
    have hz : k = 0 := Nat.le_zero.mp hk
    subst hz
    simp [iterO]
  | succ n ih =>
    intro s h k hk
    simp only [lookupBucketFuel] at h
    cases hm : mapLookup m s with
    | none => rw [hm] at h; exact absurd h (by simp)
    | some t =>
      rw [hm] at h
      cases k with
      | zero => simp [iterO]
      | succ j =>
        have hj : (iterO m j t).isSome := ih t h j (Nat.le_of_succ_le_succ hk)
        simpa [iterO, hm] using hj

/-- Unfolding the chain iterator at the far end. -/
theorem iterO_succ (m : List (String × String)) :
    ∀ (k : Nat) (s : String), iterO m (k + 1) s = (iterO m k s).bind (mapLookup m) := by
  intro k
  induction k with
  | zero => intro s; cases hm : mapLookup m s <;> simp [iterO, hm]
  | succ j ih =>
    intro s
    cases hm : mapLookup m s with
    | none => simp [iterO, hm]
    | some t =>
      simp only [iterO, hm]
      have hrec := ih t
      simpa [iterO, hm] using hrec

/-- A name with a mapping is a key of the bucket map. -/
theorem mapLookup_mem (m : List (String × String)) (a b : String)
    (h : mapLookup m a = some b) : a ∈ m.map Prod.fst := by
  simp only [mapLookup] at h
  cases hf : m.find? (fun p => p.1 == a) with
  | none => rw [hf] at h; exact absurd h (by simp)
  | some p =>
    have hp := List.find?_some hf
    have hmem := List.mem_of_find?_eq_some hf
    simp only [beq_iff_eq] at hp
    exact hp ▸ List.mem_map_of_mem Prod.fst hmem

/-- A name with no mapping is not a key of the bucket map. -/
theorem mapLookup_none_not_mem (m : List (String × String)) (r : String)
    (h : mapLookup m r = none) : r ∉ m.map Prod.fst := by
  simp only [mapLookup] at h
  cases hf : m.find? (fun p => p.1 == r) with
  | some p => rw [hf] at h; exact absurd h (by simp)
  | none =>
    intro hmem
    obtain ⟨p, hpm, hfst⟩ := List.mem_map.mp hmem
    have hnp := List.find?_eq_none.mp hf p hpm
    simp [hfst] at hnp


/-!
Claim theorems, counterexamples and witnesses.
-/

/-- C1: the `result()` classification is exactly the decision table: PENDING
iff no data, no live load stream and no error; NOT_FOUND iff an error with
status signal 404 is present; FAILED iff any other error is present; SUCCESS
otherwise.  In particular a completed envelope (one with `data` or `err`
populated) yields exactly one of NOT_FOUND / FAILED / SUCCESS, for every
combination of error presence, error status and data presence. -/
theorem result_classification (rq : S3Request) :
    (rq.result = .EPending ↔ rq.data = none ∧ rq.blobLoadStream = false ∧ rq.err = none)
    ∧ (rq.result = .ENotFound ↔ ∃ e, rq.err = some e ∧ e.statusCode = some 404)
    ∧ (rq.result = .EFail ↔ ∃ e, rq.err = some e ∧ e.statusCode ≠ some 404)
    ∧ (rq.result = .ESuccess ↔ rq.err = none ∧ (rq.data ≠ none ∨ rq.blobLoadStream = true)) := by
  obtain ⟨data, err, hasRes, lstream⟩ := rq
  simp only [S3Request.result]
  cases err with
  | none => cases data <;> cases lstream <;> simp
  | some e =>
    cases data <;> cases lstream <;> by_cases h : e.statusCode = some 404 <;> simp [h]

/-- C2: a chunk request asks for `[0, ChunkSize - 1]` while `contentLength`
is unknown and for `[contentPos, min (contentPos + ChunkSize - 1,
contentLength - 1)]` once it is known; consequently fetching a conforming
9,000,000-byte object issues exactly the three ranges `[0, 3999999]`,
`[4000000, 7999999]`, `[8000000, 8999999]`, ends with
`contentPos = contentLength = 9000000` and no error, forwards 9,000,000
bytes to the write-side stream, and reaches DONE once the pipeline end
event fires. -/
theorem chunk_ranges :
    (∀ st : LoaderState, FsmStreamLoader.tickRange st =
      match st.contentLength with
      | none => ((0 : Int), (ChunkSize : Int) - 1)
      | some len => (st.contentPos, min (st.contentPos + (ChunkSize : Int) - 1) (len - 1)))
    ∧ (runLoaderL plain9M FsmStreamLoader.init).1 =
        [(0, 3999999), (4000000, 7999999), (8000000, 8999999)]
    ∧ (runLoaderL plain9M FsmStreamLoader.init).2.contentPos = 9000000
    ∧ (runLoaderL plain9M FsmStreamLoader.init).2.contentLength = some 9000000
    ∧ (runLoaderL plain9M FsmStreamLoader.init).2.err = none
    ∧ (runLoaderL plain9M FsmStreamLoader.init).2.readStreamBytes = 9000000
    ∧ (pipelineEnd (runLoaderL plain9M FsmStreamLoader.init).2).fsmState = .DONE := by
  refine ⟨fun st => rfl, ?_⟩
  decide

/-- C3 counterexample: the claim says the gzip-decompression decision is
made exactly once per fetch, but when the first two successful responses of
one fetch both lack a content-range header (leaving `contentLength`
unknown), the decision block runs twice in that single fetch. -/
theorem decision_twice_cex :
    ((runLoaderL [.ok noHeaderGzip, .ok noHeaderGzip] FsmStreamLoader.init).2).decisionCount
      = 2 := by
  decide

/-- C3 (amended): the decompression decision block runs on every successful
response received while `contentLength` is still unknown; hence when the
first response of a fetch succeeds and carries a parseable content-range
header — as every conforming backend response does — the decision is made
exactly once for the whole fetch, on that first response, and the pipeline
routing (`pipeGzip`, gzip iff the first response declares gzip
content-encoding) never changes for the remainder of the fetch. -/
theorem gzip_decision_once (d : ChunkResponse) (rs : List (Except S3Err ChunkResponse))
    (h2 : (d.ContentRange.bind parseContentRange).isSome = true) :
    ((runLoaderL (.ok d :: rs) FsmStreamLoader.init).2).decisionCount = 1
    ∧ ((runLoaderL (.ok d :: rs) FsmStreamLoader.init).2).pipeGzip =
        some (FsmStreamLoader.decideGzip d) := by
  obtain ⟨trip, hp⟩ := Option.isSome_iff_exists.mp h2
  obtain ⟨a, e2, tot⟩ := trip
  have hd : fetchDone FsmStreamLoader.init = false := rfl
  have h1a : (FsmStreamLoader.tickCallback FsmStreamLoader.init (.ok d)).decisionCount = 1 := by
    simp only [FsmStreamLoader.tickCallback, FsmStreamLoader.init]
    rcases hb : d.Body with _ | n <;> simp [hp, hb] <;> split <;> simp_all
  have h1b : (FsmStreamLoader.tickCallback FsmStreamLoader.init (.ok d)).pipeGzip =
      some (FsmStreamLoader.decideGzip d) := by
    simp only [FsmStreamLoader.tickCallback, FsmStreamLoader.init]
    rcases hb : d.Body with _ | n <;> simp [hp, hb] <;> split <;> simp_all
  have h1c : (FsmStreamLoader.tickCallback FsmStreamLoader.init (.ok d)).contentLength ≠ none := by
    simp only [FsmStreamLoader.tickCallback, FsmStreamLoader.init]
    rcases hb : d.Body with _ | n <;> simp [hp, hb] <;> split <;> simp_all
  have hrun := runLoaderL_decision_stable rs
    (FsmStreamLoader.tickCallback FsmStreamLoader.init (.ok d)) h1c
  simp only [runLoaderL, hd, Bool.false_eq_true, if_false]
  exact ⟨h1a ▸ hrun.1, h1b ▸ hrun.2⟩

/-- C3 witness: a one-response fetch whose response carries a parseable
content-range header makes the decision exactly once and splices gunzip. -/
theorem gzip_decision_once_witness :
    (gzipSmallResp.ContentRange.bind parseContentRange).isSome = true
    ∧ ((runLoaderL [.ok gzipSmallResp] FsmStreamLoader.init).2).decisionCount = 1
    ∧ ((runLoaderL [.ok gzipSmallResp] FsmStreamLoader.init).2).pipeGzip =
        some (FsmStreamLoader.decideGzip gzipSmallResp) :=
  ⟨by decide, gzip_decision_once gzipSmallResp [] (by decide)⟩

/-- C4: processing a chunk response whose content-range header matches
`bytes <start>-<end>/<total>` (three numeric captures) sets
`contentPos = end + 1` and `contentLength = total`; an absent or
non-matching header leaves both unchanged. -/
theorem contentRange_update (st : LoaderState) (d : ChunkResponse) :
    (FsmStreamLoader.tickCallback st (.ok d)).contentPos =
      (match d.ContentRange.bind parseContentRange with
       | some (_, e2, _) => (e2 : Int) + 1
       | none => st.contentPos)
    ∧ (FsmStreamLoader.tickCallback st (.ok d)).contentLength =
      (match d.ContentRange.bind parseContentRange with
       | some (_, _, tot) => some (tot : Int)
       | none => st.contentLength) :=
  tickCallback_pos_len st d

/-- C5 counterexample: the claim says `contentPosition` only increases for
every sequence of chunk responses processed by one loader instance, but the
loader copies `end + 1` from the content-range header unconditionally, so a
response sequence whose second header rewinds the range (here
`bytes 0-10/100` then `bytes 0-5/100`, both processed in one uncompleted
fetch) moves `contentPos` from 11 back down to 6. -/
theorem contentPos_decrease_cex :
    (FsmStreamLoader.tickCallback FsmStreamLoader.init
      (.ok { ContentRange := some "bytes 0-10/100" })).contentPos = 11
    ∧ fetchDone (FsmStreamLoader.tickCallback FsmStreamLoader.init
        (.ok { ContentRange := some "bytes 0-10/100" })) = false
    ∧ (FsmStreamLoader.tickCallback
        (FsmStreamLoader.tickCallback FsmStreamLoader.init
          (.ok { ContentRange := some "bytes 0-10/100" }))
        (.ok { ContentRange := some "bytes 0-5/100" })).contentPos = 6 := by
  decide

/-- C5 (amended): for every response sequence that conforms to the issued
ranges (each parsed content-range starts at the first requested byte and
does not end before it starts — the `getObject` range contract), the
`contentPos` of a loader state satisfying the initialisation invariant never
decreases across the run; and the fetch is complete — the loader stops
issuing chunk requests — exactly when the terminal error is set or
`contentPos === contentLength` with both known. -/
theorem contentPos_monotone (rs : List (Except S3Err ChunkResponse)) (st : LoaderState)
    (hinv : st.contentLength = none → st.contentPos = 0)
    (hconf : runConformsB rs st = true) :
    st.contentPos ≤ ((runLoaderL rs st).2).contentPos
    ∧ (∀ st2 : LoaderState, fetchDone st2 = true ↔
        (st2.err ≠ none ∨ st2.contentLength = some st2.contentPos)) := by
  refine ⟨runLoaderL_pos_mono rs st hinv hconf, fun st2 => ?_⟩
  simp [fetchDone, Option.isSome_iff_ne_none]

/-- C5 witness: the conforming 9,000,000-byte run from the initial state. -/
theorem contentPos_monotone_witness :
    (FsmStreamLoader.init.contentLength = none → FsmStreamLoader.init.contentPos = 0)
    ∧ runConformsB plain9M FsmStreamLoader.init = true
    ∧ (FsmStreamLoader.init.contentPos ≤ ((runLoaderL plain9M FsmStreamLoader.init).2).contentPos
       ∧ (∀ st2 : LoaderState, fetchDone st2 = true ↔
            (st2.err ≠ none ∨ st2.contentLength = some st2.contentPos))) :=
  ⟨by decide, by decide, contentPos_monotone plain9M FsmStreamLoader.init (by decide) (by decide)⟩

/-- C6: a chunk-fetch error at any point is terminal: the callback stores
the error, closes both the write-side and the exposed stream, moves the FSM
to ERROR, and the loader issues no further chunk requests no matter how many
further responses would be available; there is no partial-chunk retry. -/
theorem chunkError_terminal (st : LoaderState) (e : S3Err) :
    (FsmStreamLoader.tickCallback st (.error e)).err = some e
    ∧ (FsmStreamLoader.tickCallback st (.error e)).readStreamDone = true
    ∧ (FsmStreamLoader.tickCallback st (.error e)).passThroughDone = true
    ∧ (FsmStreamLoader.tickCallback st (.error e)).fsmState = .ERROR
    ∧ ∀ rs : List (Except S3Err ChunkResponse),
        runLoaderL rs (FsmStreamLoader.tickCallback st (.error e)) =
          ([], FsmStreamLoader.tickCallback st (.error e)) := by
  refine ⟨rfl, rfl, rfl, rfl, ?_⟩
  intro rs
  cases rs with
  | nil => rfl
  | cons r rs => simp [runLoaderL, fetchDone, FsmStreamLoader.tickCallback]

/-- C7 counterexample: two violations of the claim at concrete envelopes.
First, the property-list view does not return a defined result on an
envelope whose data is absent: `asProps` calls `_dataToProps(this.data)`
without any guard, which dereferences `null` and throws a `TypeError` on the
empty envelope.  Second, the key-list view does not return an absent/empty
value on every envelope without a payload body: on a listing envelope whose
`Contents` holds one keyed entry while `Body` is absent and no error is set,
`asArray` returns that key. -/
theorem typedViews_cex :
    S3Request.asProps {} = .error "TypeError: Cannot read properties of null"
    ∧ listingNoBody.Body = none
    ∧ ({ data := some listingNoBody, hasRes := true } : S3Request).err = none
    ∧ ({ data := some listingNoBody, hasRes := true } : S3Request).asArray = ["k1"] :=
  ⟨rfl, rfl, rfl, rfl⟩

/-- C7 (amended): the text, decompressed-bytes and raw-bytes views return an
absent value — without raising — whenever the envelope is errored, has no
response object, or has no payload body.  The key-list view is guarded only
by the shape of data: it returns the empty list when data is absent, and
whenever data is present it returns the listing entry keys (empty when
`Contents` is no array) — even on an envelope without a payload body.  The
property-list view has no guard: it raises a `TypeError` when data is absent
and returns a defined list exactly when data is present. -/
theorem typedViews_guarded (rq : S3Request) (h : noPayload rq = true) :
    rq.asString = none ∧ rq.asUncompressedBuffer = none ∧ rq.asBuffer = none
    ∧ (rq.data = none → rq.asArray = []
        ∧ rq.asProps = .error "TypeError: Cannot read properties of null")
    ∧ (∀ d, rq.data = some d → ∃ l, rq.asProps = .ok l)
    ∧ (∀ d, rq.data = some d →
        rq.asArray =
          match d.Contents with
          | some entries => entries.map (fun e => e.Key.getD "")
          | none => []) := by
  obtain ⟨data, err, hasRes, lstream⟩ := rq
  cases data with
  | none =>
    have hviews : (⟨none, err, hasRes, lstream⟩ : S3Request).asString = none
        ∧ (⟨none, err, hasRes, lstream⟩ : S3Request).asUncompressedBuffer = none
        ∧ (⟨none, err, hasRes, lstream⟩ : S3Request).asBuffer = none := by
      cases err <;> cases hasRes <;>
        simp [S3Request.asString, S3Request.asUncompressedBuffer, S3Request.asBuffer]
    exact ⟨hviews.1, hviews.2.1, hviews.2.2,
           fun _ => ⟨rfl, rfl⟩, fun d2 hd2 => absurd hd2 (by simp),
           fun d2 hd2 => absurd hd2 (by simp)⟩
  | some d =>
    have hprops : ∃ l, S3Request.asProps ⟨some d, err, hasRes, lstream⟩ = .ok l := by
      cases hc : d.Contents <;> simp [S3Request.asProps, hc]
    have hviews : (⟨some d, err, hasRes, lstream⟩ : S3Request).asString = none
        ∧ (⟨some d, err, hasRes, lstream⟩ : S3Request).asUncompressedBuffer = none
        ∧ (⟨some d, err, hasRes, lstream⟩ : S3Request).asBuffer = none := by
      simp only [noPayload, Bool.or_eq_true, Bool.not_eq_true'] at h
      by_cases hg : (err.isSome ∨ hasRes = false)
      · simp [S3Request.asString, S3Request.asUncompressedBuffer, S3Request.asBuffer, hg]
      · have hB : d.Body = none := by
          rcases h with (h | h) | h
          · exact absurd (Or.inl h) hg
          · exact absurd (Or.inr h) hg
          · exact Option.isNone_iff_eq_none.mp h
        push_neg at hg
        simp [S3Request.asString, S3Request.asUncompressedBuffer, S3Request.asBuffer,
              hg.1, hg.2, hB]
    refine ⟨hviews.1, hviews.2.1, hviews.2.2, by simp, fun d2 _ => hprops, fun d2 hd2 => ?_⟩
    injection hd2 with hh
    subst hh
    cases hc : d.Contents <;> simp [S3Request.asArray, hc]

/-- C7 witness: the empty envelope satisfies the guard condition and the
amended conclusion. -/
theorem typedViews_guarded_witness :
    noPayload {} = true
    ∧ (({} : S3Request).asString = none ∧ ({} : S3Request).asUncompressedBuffer = none
       ∧ ({} : S3Request).asBuffer = none
       ∧ (({} : S3Request).data = none → ({} : S3Request).asArray = []
           ∧ ({} : S3Request).asProps = .error "TypeError: Cannot read properties of null")
       ∧ (∀ d, ({} : S3Request).data = some d → ∃ l, ({} : S3Request).asProps = .ok l)
       ∧ (∀ d, ({} : S3Request).data = some d →
           ({} : S3Request).asArray =
             match d.Contents with
             | some entries => entries.map (fun e => e.Key.getD "")
             | none => [])) :=
  ⟨rfl, typedViews_guarded {} rfl⟩

/-- C8 counterexample: the claim says a gzip save with no buffer, no stream
and no local file surfaces a FAILED result classified from the local
stream-open error, but the gzip guard skips the local-file branch entirely:
even with a file opener that always fails, body selection succeeds with the
(absent) string content, the local-error log line never appears, and with a
successful remote put the surfaced result is SUCCESS, not FAILED. -/
theorem save_gzip_no_local_error_cex :
    saveBodySelect gzipNoContentBlob (fun _ => some { message := some "open failed" }) =
      .ok (.fromString none)
    ∧ .setResult .ESuccess ∈
        StorageManager.save gzipNoContentBlob (fun _ => some { message := some "open failed" }) none
    ∧ .logError "S3: failed to open blob path file" ∉
        StorageManager.save gzipNoContentBlob (fun _ => some { message := some "open failed" }) none
    ∧ .setResult .EFail ∉
        StorageManager.save gzipNoContentBlob (fun _ => some { message := some "open failed" }) none := by
  refine ⟨rfl, ?_, ?_, ?_⟩ <;> decide

/-- C8 (amended): for a save of a blob with `ContentEncoding: gzip` that has
no stream and no buffer, the local-file open is skipped entirely (regardless
of whether a file or a failing opener is present), the put body is the
string content of the blob, the local stream-open error path is never taken,
`putObject` is issued, the save-completion observer fires exactly once, and
a FAILED result arises exactly from a (non-404) remote put error. -/
theorem save_gzip_uses_string (blob : SaveBlob) (f : String → Option S3Err) (e : S3Err)
    (hgz : blob.contentEncoding = some "gzip") (hs : blob.hasStream = false)
    (hb : blob.hasBuffer = false) (hid : blob.id ≠ "") (h404 : e.statusCode ≠ some 404) :
    saveBodySelect blob f = .ok (.fromString blob.str)
    ∧ observerCount (StorageManager.save blob f (some e)) = 1
    ∧ .setResult .EFail ∈ StorageManager.save blob f (some e)
    ∧ .logError "S3: failed to open blob path file" ∉ StorageManager.save blob f (some e)
    ∧ .networkCall "putObject" ∈ StorageManager.save blob f (some e) := by
  have hsel : saveBodySelect blob f = .ok (.fromString blob.str) := by
    simp [saveBodySelect, hgz, hs, hb]
  have hres : S3Request.result { err := some e, hasRes := true } = .EFail := by
    simp [S3Request.result, h404]
  refine ⟨hsel, ?_, ?_, ?_, ?_⟩ <;>
    simp [StorageManager.save, hid, hsel, hres, observerCount]

/-- C8 witness: the gzip blob with no content, a never-failing opener and a
remote error with status 500. -/
theorem save_gzip_uses_string_witness :
    gzipNoContentBlob.contentEncoding = some "gzip"
    ∧ gzipNoContentBlob.hasStream = false
    ∧ gzipNoContentBlob.hasBuffer = false
    ∧ gzipNoContentBlob.id ≠ ""
    ∧ ({ statusCode := some 500 } : S3Err).statusCode ≠ some 404
    ∧ (saveBodySelect gzipNoContentBlob (fun _ => none) = .ok (.fromString gzipNoContentBlob.str)
       ∧ observerCount (StorageManager.save gzipNoContentBlob (fun _ => none)
           (some { statusCode := some 500 })) = 1
       ∧ .setResult .EFail ∈ StorageManager.save gzipNoContentBlob (fun _ => none)
           (some { statusCode := some 500 })
       ∧ .logError "S3: failed to open blob path file" ∉
           StorageManager.save gzipNoContentBlob (fun _ => none) (some { statusCode := some 500 })
       ∧ .networkCall "putObject" ∈ StorageManager.save gzipNoContentBlob (fun _ => none)
           (some { statusCode := some 500 })) :=
  ⟨rfl, rfl, rfl, by decide, by decide,
   save_gzip_uses_string gzipNoContentBlob (fun _ => none) { statusCode := some 500 }
     rfl rfl rfl (by decide) (by decide)⟩

/-- C9: every operation called with an empty key (empty resolved bucket for
the listing) produces exactly one local error-log event and nothing else: no
network call, no envelope, no observer notification, and no exception (the
trace functions are total). -/
theorem emptyKey_aborts (stream : Bool) (remote remote2 : Except S3Err S3Data)
    (blob : SaveBlob) (hid : blob.id = "") (f : String → Option S3Err)
    (remoteS : Option S3Err) :
    StorageManager.load "" stream remote = [.logError "S3: blob load called with empty key"]
    ∧ StorageManager.head "" remote2 = [.logError "S3: blob head called with empty key"]
    ∧ StorageManager.save blob f remoteS = [.logError "S3: blob save called with empty key"]
    ∧ StorageManager.del "" = [.logError "S3: blob delete called with empty key"]
    ∧ StorageManager.ls "" = [.logError "S3: blob ls called with empty bucket"]
    ∧ (∀ msg : String, networkCount [.logError msg] = 0 ∧ envelopeCount [.logError msg] = 0
        ∧ observerCount [.logError msg] = 0) := by
  refine ⟨rfl, rfl, ?_, rfl, rfl, fun msg => ⟨rfl, rfl, rfl⟩⟩
  simp [StorageManager.save, hid]

/-- C9 witness: concrete instantiation with an empty-keyed blob. -/
theorem emptyKey_aborts_witness :
    ({ id := "" } : SaveBlob).id = ""
    ∧ (StorageManager.load "" false (.ok {}) = [.logError "S3: blob load called with empty key"]
       ∧ StorageManager.head "" (.ok {}) = [.logError "S3: blob head called with empty key"]
       ∧ StorageManager.save { id := "" } (fun _ => none) none =
           [.logError "S3: blob save called with empty key"]
       ∧ StorageManager.del "" = [.logError "S3: blob delete called with empty key"]
       ∧ StorageManager.ls "" = [.logError "S3: blob ls called with empty bucket"]
       ∧ (∀ msg : String, networkCount [.logError msg] = 0 ∧ envelopeCount [.logError msg] = 0
           ∧ observerCount [.logError msg] = 0)) :=
  ⟨rfl, emptyKey_aborts false (.ok {}) (.ok {}) { id := "" } rfl (fun _ => none) none⟩

/-- C10: whenever the bucket-map chain starting at a name is acyclic,
`lookupBucket` terminates within the fuel bound and the resolved name has no
further mapping — it is not itself a key of the bucket map. -/
theorem lookupBucket_terminates (m : List (String × String)) (s : String)
    (hacyc : acyclicFromB m s = true) :
    ∃ r, StorageManager.lookupBucket m s = some r ∧ mapLookup m r = none
      ∧ r ∉ m.map Prod.fst := by
  cases hlb : StorageManager.lookupBucket m s with
  | some r =>
    have h1 := lookupBucketFuel_some_not_mapped m (m.length + 1) s r hlb
    exact ⟨r, rfl, h1, mapLookup_none_not_mem m r h1⟩
  | none =>
    exfalso
    have hall : ∀ k, k ≤ m.length + 1 → (iterO m k s).isSome :=
      lookupBucketFuel_none_iter m (m.length + 1) s hlb
    have hdist : ∀ i j, i < j → j < m.length + 1 → ∀ a b,
        iterO m i s = some a → iterO m j s = some b → a ≠ b := by
      intro i j hij hj a b ha hb
      have h1 := List.all_eq_true.mp hacyc j (List.mem_range.mpr hj)
      have h2 := List.all_eq_true.mp h1 i (List.mem_range.mpr hij)
      rw [ha, hb] at h2
      exact bne_iff_ne.mp h2
    have hinj : ∀ x ∈ List.range (m.length + 1), ∀ y ∈ List.range (m.length + 1),
        (iterO m x s).getD "" = (iterO m y s).getD "" → x = y := by
      intro x hx y hy hxy
      by_contra hne
      obtain ⟨a, ha⟩ := Option.isSome_iff_exists.mp
        (hall x (Nat.le_of_lt (List.mem_range.mp hx)))
      obtain ⟨b, hb⟩ := Option.isSome_iff_exists.mp
        (hall y (Nat.le_of_lt (List.mem_range.mp hy)))
      rw [ha, hb] at hxy
      simp only [Option.getD_some] at hxy
      rcases Nat.lt_or_ge x y with hlt | hge
      · exact hdist x y hlt (List.mem_range.mp hy) a b ha hb hxy
      · have hlt : y < x := Nat.lt_of_le_of_ne hge (fun hh => hne hh.symm)
        exact hdist y x hlt (List.mem_range.mp hx) b a hb ha hxy.symm
    have hnodup : ((List.range (m.length + 1)).map (fun k => (iterO m k s).getD "")).Nodup :=
      List.Nodup.map_on hinj (List.nodup_range _)
    have hsub : ((List.range (m.length + 1)).map (fun k => (iterO m k s).getD "")) ⊆
        m.map Prod.fst := by
      intro x hxl
      obtain ⟨k, hk, hkx⟩ := List.mem_map.mp hxl
      have hkN : k < m.length + 1 := List.mem_range.mp hk
      obtain ⟨a, ha⟩ := Option.isSome_iff_exists.mp (hall k (Nat.le_of_lt hkN))
      obtain ⟨b, hb⟩ := Option.isSome_iff_exists.mp (hall (k + 1) hkN)
      have hstep : iterO m (k + 1) s = (iterO m k s).bind (mapLookup m) := iterO_succ m k s
      rw [hb, ha] at hstep
      simp only [Option.some_bind] at hstep
      have hmem := mapLookup_mem m a b hstep.symm
      rw [← hkx, ha]
      simpa using hmem
    have hsp := List.subperm_of_subset hnodup hsub
    have hle := hsp.length_le
    simp only [List.length_map, List.length_range] at hle
    omega

/-- C10 witness: the two-entry acyclic chain `a -> b -> c`. -/
theorem lookupBucket_terminates_witness :
    acyclicFromB [("a", "b"), ("b", "c")] "a" = true
    ∧ ∃ r, StorageManager.lookupBucket [("a", "b"), ("b", "c")] "a" = some r
        ∧ mapLookup [("a", "b"), ("b", "c")] r = none
        ∧ r ∉ [("a", "b"), ("b", "c")].map Prod.fst :=
  ⟨by decide, lookupBucket_terminates [("a", "b"), ("b", "c")] "a" (by decide)⟩

end StorageS3
